import Mathlib

/-!
Verification of the profiler-frontend quiz client (src/App.tsx, src/types.ts).

The client is shallowly embedded: React component state becomes explicit
state records, event handlers become pure state-transformer functions, the
asynchronous fetch handlers become two-phase functions (a synchronous begin
phase and a resolve phase fed an explicit response), and the event loop
becomes a labelled step relation with an enabledness condition recording
which screen must be rendered for a handler to fire.  JS numbers used as
times are Int, counts and indices are Nat, JS objects used as string-keyed
maps are association lists with JS object-update semantics.
-/

/-! ## Data model (src/types.ts) -/

/-- The Analysis interface. -/
structure Analysis where
  title : String
  overall_summary : String
  strengths_analysis : String
  growth_analysis : String
  action_item : String
deriving DecidableEq

/-- The Category interface. -/
structure Category where
  id : String
  title : String
  description : String
  icon : String
deriving DecidableEq

/-- The Question interface. -/
structure Question where
  id : Int
  category : String
  questionText : String
  options : List String
deriving DecidableEq

/-- The CategoryResult interface: a per-category tally. -/
structure CategoryResult where
  correct : Nat
  total : Nat
deriving DecidableEq

/-- The TestResults interface.  The categoryResults JS object is modelled as
an association list from category name to CategoryResult, in the order the
entries occur. -/
structure TestResults where
  totalCorrect : Nat
  totalQuestions : Nat
  categoryResults : List (String × CategoryResult)
deriving DecidableEq

/-- The SubmitResponse interface. -/
structure SubmitResponse where
  results : TestResults
  analysis : Analysis
deriving DecidableEq

/-- The UserAnswer map (a JS object keyed by question-id strings) as an
association list of entries, in JS object key order. -/
abbrev UserAnswer := List (String × Nat)

/-! ## The countdown timer (TestScreen hook 1, src/App.tsx)

The setInterval callback performs one tick per second:
setTimeLeft(prev => prev <= 1 ? 0 : prev - 1), and the hook refuses to
start the interval at all when timeLimit <= 0. -/

/-- One tick of the countdown interval: the functional update
fun prevTime => if prevTime <= 1 then 0 else prevTime - 1. -/
def tick (t : Int) : Int := if t ≤ 1 then 0 else t - 1

/-- The displayed timeLeft after n elapsed ticks for a test with time limit
L: the hook first resets timeLeft to L; if L ≤ 0 no interval is started and
the value stays L, otherwise each second applies one tick. -/
def timeLeftAt (L : Int) (n : Nat) : Int :=
  if L ≤ 0 then L else tick^[n] L

/-! ## The ResultBar percentage (ResultsScreen, src/App.tsx) -/

/-- The width percentage of a category result bar:
total > 0 ? (correct / total) * 100 : 0, with JS number division modelled
over the rationals. -/
def resultBarPercentage (correct total : Nat) : ℚ :=
  if 0 < total then ((correct : ℚ) / (total : ℚ)) * 100 else 0

/-! ## Category selection (CategorySelectionScreen, src/App.tsx)

handleSelect copies the selected set, then deletes the id if present and
adds it otherwise.  The JS Set of ids is a Finset String. -/

/-- handleSelect: toggle an id in the selected set. -/
def handleSelect (id : String) (selected : Finset String) : Finset String :=
  if id ∈ selected then selected.erase id else insert id selected

/-! ## shuffleArray (src/App.tsx line 8)

shuffleArray spreads the input into a fresh array and sorts the copy with
the comparator () => Math.random() - 0.5.  The comparator ignores its
arguments, so the sort is driven by an external stream of comparison
outcomes; ECMAScript guarantees the result of sort is a rearrangement of
the receiver whatever the comparator returns.  The sort is modelled as a
comparison sort threading a counter k into an arbitrary outcome stream r,
where r k = true means the k-th comparator call returned a negative
number (keeping the inserted element in front). -/

/-- Insert x into l, deciding at each position by the next comparator
outcome; returns the new list and the next unused outcome index. -/
def insertR {T : Type} (r : Nat → Bool) (x : T) : List T → Nat → List T × Nat
  | [], k => ([x], k)
  | y :: ys, k =>
      if r k then (x :: y :: ys, k + 1)
      else
        let p := insertR r x ys (k + 1)
        (y :: p.1, p.2)

/-- Comparison sort consuming the outcome stream r starting at index k. -/
def sortR {T : Type} (r : Nat → Bool) : List T → Nat → List T × Nat
  | [], k => ([], k)
  | x :: xs, k =>
      let p := sortR r xs k
      insertR r x p.1 p.2

/-- The spread [...array]: a fresh array holding the same elements. -/
def spreadCopy {T : Type} (a : List T) : List T := List.foldr List.cons [] a

/-- shuffleArray: sort a spread copy of the array with a random comparator,
the randomness abstracted as the outcome stream r. -/
def shuffleArray {T : Type} (r : Nat → Bool) (a : List T) : List T :=
  (sortR r (spreadCopy a) 0).1

/-! ## Submit-on-timeout watcher (TestScreen hook 2, src/App.tsx)

The second effect fires onSubmit(userAnswers) exactly when
timeLeft === 0 && questions.length > 0. -/

/-- The watcher hook body: the submission it performs (the recorded
answers) or none. -/
def timeoutSubmit (timeLeft : Int) (numQuestions : Nat) (answers : UserAnswer) :
    Option UserAnswer :=
  if timeLeft = 0 ∧ 0 < numQuestions then some answers else none

/-! ## Backend endpoints referenced by the client (src/App.tsx)

The client performs exactly three fetch calls: fetchCategories,
handleStartTest and handleSubmitTest.  FetchSite enumerates the call
sites; the path, method and body of each are read off the fetch
expressions. -/

/-- HTTP methods used by the client. -/
inductive HttpMethod
  | get
  | post
deriving DecidableEq

/-- The three fetch call sites in src/App.tsx. -/
inductive FetchSite
  | categories
  | startTest
  | submitTest
deriving DecidableEq

/-- One element of the submit-test request body:
{ questionId: parseInt(qid), selectedOption: option }. -/
structure BackendAnswer where
  questionId : Int
  selectedOption : Nat
deriving DecidableEq

/-- The request bodies the client sends. -/
inductive ApiBody
  | empty
  | categoryIds (ids : List String)
  | answerList (answers : List BackendAnswer)
deriving DecidableEq

/-- JS parseInt on a question-id key.  The keys fed to it are produced by
Number.prototype.toString on a question id, so the NaN case of parseInt is
unreachable; it is modelled as a default of 0. -/
def jsParseInt (s : String) : Int := (s.toInt?).getD 0

/-- The path in the fetch URL at each call site, after API_BASE_URL. -/
def sitePath : FetchSite → String
  | .categories => "/categories"
  | .startTest => "/start-test"
  | .submitTest => "/submit-test"

/-- The HTTP method at each call site (fetch defaults to GET for
fetchCategories; the other two pass method: POST). -/
def siteMethod : FetchSite → HttpMethod
  | .categories => .get
  | .startTest => .post
  | .submitTest => .post

/-- The body of the start-test request: the ids of the selected
categories, as in categories.map(c => c.id). -/
def startTestBody (categories : List Category) : ApiBody :=
  .categoryIds (categories.map fun c => c.id)

/-- The body of the submit-test request: the entries of the answers
object mapped to questionId/selectedOption records. -/
def submitTestBody (answers : UserAnswer) : ApiBody :=
  .answerList (answers.map fun p => ⟨jsParseInt p.1, p.2⟩)

/-- The body sent at each call site, given the start-test selection and
the submit-test answers. -/
def siteBody (categories : List Category) (answers : UserAnswer) : FetchSite → ApiBody
  | .categories => .empty
  | .startTest => startTestBody categories
  | .submitTest => submitTestBody answers

/-! ## Backend scoring (not under src/)

The client displays TestResults values produced by the backend
/submit-test endpoint, which is not part of the sources; the spec
describes it as: compare submitted answers to an answer key, tally
per-category correctness. -/

/-- Modelled from the spec: one entry of the backend question bank (the
answer key), missing from the sources; a question with its category and
the index of its correct option. -/
structure BankQuestion where
  id : Int
  category : String
  correctOption : Nat
deriving DecidableEq

/-- Modelled from the spec: the submitted answer for a question id, looked
up among the submitted answers. -/
def answerFor (answers : List BackendAnswer) (qid : Int) : Option Nat :=
  (answers.find? fun a => a.questionId == qid).map fun a => a.selectedOption

/-- Modelled from the spec: a question is answered correctly when the
submitted option equals the correct option of the answer key. -/
def isCorrect (answers : List BackendAnswer) (q : BankQuestion) : Bool :=
  answerFor answers q.id == some q.correctOption

/-- Modelled from the spec: the /submit-test scoring, missing from the
sources: grade each bank question against the submitted answers and tally
per-category correctness, one categoryResults entry per distinct category
occurring in the bank. -/
def scoreTest (bank : List BankQuestion) (answers : List BackendAnswer) : TestResults :=
  { totalCorrect := bank.countP (isCorrect answers)
  , totalQuestions := bank.length
  , categoryResults :=
      ((bank.map fun q => q.category).dedup).map fun c =>
        (c, { correct := (bank.filter fun q => q.category = c).countP (isCorrect answers)
            , total := (bank.filter fun q => q.category = c).length }) }

/-! ## The App state machine (App component, src/App.tsx)

The useState variables of App form the state record; each handler is a
pure state transformer.  The two async handlers are split into a
synchronous begin phase (what runs before the await) and a resolve phase
(the continuation, fed the settled response explicitly).  The browser
event loop is a labelled step relation: a user handler can fire only while
the screen that renders it is shown, and a resolve phase only while its
request is in flight. -/

/-- The Screen union type (src/App.tsx line 5). -/
inductive Screen
  | selection
  | test
  | loading
  | results
deriving DecidableEq

/-- An in-flight request of App: which continuation is waiting on a fetch
promise, with the argument it captured. -/
inductive Pending
  | idle
  | startReq (categories : List Category)
  | submitReq (answers : UserAnswer)
deriving DecidableEq

/-- The payload of a successful /start-test response:
the questions and timeLimitSeconds object. -/
structure StartData where
  questions : List Question
  timeLimitSeconds : Int
deriving DecidableEq

/-- The useState variables of the App component. -/
structure AppState where
  screen : Screen
  quizQuestions : List Question
  testResults : Option TestResults
  analysis : Option Analysis
  error : Option String
  allCategories : List Category
  timeLimit : Int
  pending : Pending
deriving DecidableEq

/-- The initial App state, from the useState initial values. -/
def initialAppState : AppState :=
  { screen := .selection, quizQuestions := [], testResults := none,
    analysis := none, error := none, allCategories := [], timeLimit := 0,
    pending := .idle }

/-- The synchronous part of handleStartTest, before its await: show the
loading spinner, clear the error and issue the /start-test request. -/
def startTestBegin (s : AppState) (categories : List Category) : AppState :=
  { s with screen := .loading, error := none, pending := .startReq categories }

/-- The continuation of handleStartTest once /start-test settles: on
success save the questions and the dynamic time limit, reset old results
and go to the test screen; on error record the message and go back to
selection. -/
def startTestResolve (s : AppState) (r : Except String StartData) : AppState :=
  match r with
  | .ok d =>
      { s with
        quizQuestions := d.questions
        timeLimit := d.timeLimitSeconds
        testResults := none
        analysis := none
        screen := .test
        pending := .idle }
  | .error msg =>
      { s with error := some msg, screen := .selection, pending := .idle }

/-- The synchronous part of handleSubmitTest, before its await. -/
def submitTestBegin (s : AppState) (answers : UserAnswer) : AppState :=
  { s with screen := .loading, error := none, pending := .submitReq answers }

/-- The continuation of handleSubmitTest once /submit-test settles: on
success save the results and analysis, on error record the message, and in
both cases the finally block shows the results screen. -/
def submitTestResolve (s : AppState) (r : Except String SubmitResponse) : AppState :=
  match r with
  | .ok d =>
      { s with
        testResults := some d.results
        analysis := some d.analysis
        screen := .results
        pending := .idle }
  | .error msg =>
      { s with error := some msg, screen := .results, pending := .idle }

/-- handleSubmitTest as a whole: its begin phase followed by its resolve
phase on the settled response r. -/
def handleSubmitTest (s : AppState) (answers : UserAnswer)
    (r : Except String SubmitResponse) : AppState :=
  submitTestResolve (submitTestBegin s answers) r

/-- handleTestAgain: back to selection, clearing quiz data, results,
analysis and error. -/
def testAgainUpdate (s : AppState) : AppState :=
  { s with
    screen := .selection
    quizQuestions := []
    testResults := none
    analysis := none
    error := none }

/-- The continuation of the startup fetchCategories effect: save the
categories, or record the error message; the screen is untouched. -/
def fetchCategoriesResolve (s : AppState) (r : Except String (List Category)) : AppState :=
  match r with
  | .ok cats => { s with allCategories := cats }
  | .error msg => { s with error := some msg }

/-- The events App reacts to: a user handler firing from the rendered
screen, or a fetch promise settling. -/
inductive AppEvent
  | startTest (categories : List Category)
  | startResolve (r : Except String StartData)
  | submitTest (answers : UserAnswer)
  | submitResolve (r : Except String SubmitResponse)
  | testAgain
  | categoriesResolve (r : Except String (List Category))

/-- The labelled transition relation of App.  onStartTest is reachable
only from the rendered selection screen, onSubmit only from the rendered
test screen, onTestAgain only from the results screen; a resolve event
fires only while its request is in flight. -/
inductive AppStep : AppState → AppEvent → AppState → Prop
  | startTest (s : AppState) (categories : List Category)
      (hscreen : s.screen = .selection) :
      AppStep s (.startTest categories) (startTestBegin s categories)
  | startResolve (s : AppState) (categories : List Category)
      (r : Except String StartData) (hpending : s.pending = .startReq categories) :
      AppStep s (.startResolve r) (startTestResolve s r)
  | submitTest (s : AppState) (answers : UserAnswer) (hscreen : s.screen = .test) :
      AppStep s (.submitTest answers) (submitTestBegin s answers)
  | submitResolve (s : AppState) (answers : UserAnswer)
      (r : Except String SubmitResponse) (hpending : s.pending = .submitReq answers) :
      AppStep s (.submitResolve r) (submitTestResolve s r)
  | testAgain (s : AppState) (hscreen : s.screen = .results) :
      AppStep s .testAgain (testAgainUpdate s)
  | categoriesResolve (s : AppState) (r : Except String (List Category)) :
      AppStep s (.categoriesResolve r) (fetchCategoriesResolve s r)

/-- The App states reachable from the initial state. -/
inductive AppReachable : AppState → Prop
  | init : AppReachable initialAppState
  | step {s e t} : AppReachable s → AppStep s e t → AppReachable t

/-- While a request is in flight, the loading screen is shown (the begin
phase of either async handler switches to it, and nothing else can run
until the resolve phase leaves it). -/
def PendingInv (s : AppState) : Prop :=
  (∀ categories, s.pending = .startReq categories → s.screen = .loading) ∧
  (∀ answers, s.pending = .submitReq answers → s.screen = .loading)

/-! ## TestScreen local state (TestScreen component, src/App.tsx)

The navigation and answer-selection handlers of TestScreen, as a step
relation over its useState variables.  The option buttons are rendered by
mapping over the options of the current question, so handleAnswerSelect can
only ever fire with an index below the option count of that question; this
enabledness condition is part of the select step. -/

/-- JS object update with a computed key, as in the functional update
prev => ({...prev, [currentQuestionId]: answerIndex}): replace the value
at an existing key in place, otherwise append the new entry. -/
def setKey (k : String) (v : Nat) : UserAnswer → UserAnswer
  | [] => [(k, v)]
  | (k2, v2) :: rest => if k2 = k then (k, v) :: rest else (k2, v2) :: setKey k v rest

/-- The useState variables of TestScreen driving answer recording. -/
structure TestScreenState where
  currentQuestionIndex : Nat
  userAnswers : UserAnswer
deriving DecidableEq

/-- The initial TestScreen state: index 0, empty answers object. -/
def initialTestScreenState : TestScreenState := ⟨0, []⟩

/-- handleAnswerSelect for the current question q: store the chosen index
under the key q.id.toString(). -/
def handleAnswerSelect (q : Question) (i : Nat) (s : TestScreenState) : TestScreenState :=
  { s with userAnswers := setKey (toString q.id) i s.userAnswers }

/-- The TestScreen handlers as a step relation for a fixed question list:
selecting an option of the current question (only indices of rendered
option buttons can fire), handleNext, handlePrev. -/
inductive TestScreenStep (questions : List Question) :
    TestScreenState → TestScreenState → Prop
  | select (s : TestScreenState) (i : Nat)
      (hq : s.currentQuestionIndex < questions.length)
      (hi : i < (questions.get ⟨s.currentQuestionIndex, hq⟩).options.length) :
      TestScreenStep questions s
        (handleAnswerSelect (questions.get ⟨s.currentQuestionIndex, hq⟩) i s)
  | next (s : TestScreenState) (h : s.currentQuestionIndex < questions.length - 1) :
      TestScreenStep questions s { s with currentQuestionIndex := s.currentQuestionIndex + 1 }
  | prev (s : TestScreenState) (h : 0 < s.currentQuestionIndex) :
      TestScreenStep questions s { s with currentQuestionIndex := s.currentQuestionIndex - 1 }

/-- The TestScreen states reachable from the initial state. -/
inductive TestScreenReachable (questions : List Question) : TestScreenState → Prop
  | init : TestScreenReachable questions initialTestScreenState
  | step {s t} : TestScreenReachable questions s → TestScreenStep questions s t →
      TestScreenReachable questions t

/-! ## Concrete data for exercising the machines -/

/-- A concrete category. -/
def wCategory : Category := ⟨"verbal-logic", "Verbal Logic", "desc", "brain"⟩

/-- A concrete question with two options. -/
def wQuestion : Question := ⟨1, "Verbal Logic", "Which word fits?", ["alpha", "beta"]⟩

/-- A concrete successful /start-test payload. -/
def wStartData : StartData := ⟨[wQuestion], 900⟩

/-- A concrete analysis. -/
def wAnalysis : Analysis := ⟨"Profile", "overall", "strengths", "growth", "action"⟩

/-- A concrete TestResults value. -/
def wTestResults : TestResults := ⟨1, 1, [("Verbal Logic", ⟨1, 1⟩)]⟩

/-- A concrete recorded-answers object. -/
def wAnswers : UserAnswer := [("1", 1)]

/-- A concrete successful /submit-test payload. -/
def wSubmitResponse : SubmitResponse := ⟨wTestResults, wAnalysis⟩

/-- App state after pressing Start Test on the selection screen. -/
def wState1 : AppState := startTestBegin initialAppState [wCategory]

/-- App state after /start-test succeeds: the test screen. -/
def wState2 : AppState := startTestResolve wState1 (.ok wStartData)

/-- App state after submitting from the test screen: loading, with the
submission in flight. -/
def wState3 : AppState := submitTestBegin wState2 wAnswers

/-- App state after /submit-test succeeds: the results screen. -/
def wState4 : AppState := submitTestResolve wState3 (.ok wSubmitResponse)

/-- TestScreen state after selecting option 1 of the current question. -/
def wTSState : TestScreenState := handleAnswerSelect wQuestion 1 initialTestScreenState

/-! ## Theorems -/

lemma tick_nonneg (t : Int) : 0 ≤ tick t := by
  unfold tick; split <;> omega

lemma tick_iterate_nonneg {L : Int} (h : 0 ≤ L) (n : Nat) : 0 ≤ tick^[n] L := by
  induction n with
  | zero => simpa using h
  | succ n _ =>
      rw [Function.iterate_succ_apply']
      exact tick_nonneg _

lemma insertR_perm {T : Type} (r : Nat → Bool) (x : T) :
    ∀ (l : List T) (k : Nat), (insertR r x l k).1.Perm (x :: l) := by
  intro l
  induction l with
  | nil => intro k; simp [insertR]
  | cons y ys ih =>
      intro k
      unfold insertR
      by_cases h : r k
      · simp [h]
      · simp only [h, if_neg, Bool.false_eq_true, not_false_eq_true]
        exact ((ih (k + 1)).cons y).trans (List.Perm.swap x y ys)

lemma sortR_perm {T : Type} (r : Nat → Bool) :
    ∀ (l : List T) (k : Nat), (sortR r l k).1.Perm l := by
  intro l
  induction l with
  | nil => intro k; simp [sortR]
  | cons x xs ih =>
      intro k
      unfold sortR
      exact (insertR_perm r x _ _).trans ((ih k).cons x)

lemma spreadCopy_eq {T : Type} (a : List T) : spreadCopy a = a := by
  induction a with
  | nil => rfl
  | cons x xs ih =>
      show x :: spreadCopy xs = x :: xs
      rw [ih]

lemma sum_map_add (cs : List String) (A B : String → Nat) :
    (cs.map fun c => A c + B c).sum = (cs.map A).sum + (cs.map B).sum := by
  induction cs with
  | nil => rfl
  | cons c cs ih => simp only [List.map_cons, List.sum_cons, ih]; omega

lemma sum_indicator_not_mem (cs : List String) (k : String) (h : k ∉ cs) :
    (cs.map fun c => if k = c then 1 else 0).sum = 0 := by
  induction cs with
  | nil => rfl
  | cons c cs ih =>
      simp only [List.mem_cons, not_or] at h
      simp [h.1, ih h.2]

lemma sum_indicator_nodup (cs : List String) (k : String) (hnd : cs.Nodup)
    (hmem : k ∈ cs) : (cs.map fun c => if k = c then 1 else 0).sum = 1 := by
  induction cs with
  | nil => cases hmem
  | cons c cs ih =>
      rw [List.nodup_cons] at hnd
      by_cases hk : k = c
      · subst hk
        simp [sum_indicator_not_mem cs k hnd.1]
      · rcases List.mem_cons.mp hmem with h | h
        · exact absurd h hk
        · simp [hk, ih hnd.2 h]

lemma countP_sum_over_keys {α : Type} (key : α → String) (p : α → Bool)
    (cs : List String) (hnd : cs.Nodup) :
    ∀ l : List α, (∀ x ∈ l, key x ∈ cs) →
      (cs.map fun c => l.countP fun x => decide (key x = c) && p x).sum = l.countP p := by
  intro l
  induction l with
  | nil => intro _; simp
  | cons a l ih =>
      intro hcov
      have ha : key a ∈ cs := hcov a (List.mem_cons_self a l)
      have hl : ∀ x ∈ l, key x ∈ cs := fun x hx => hcov x (List.mem_cons_of_mem a hx)
      have hsplit :
          (cs.map fun c => (a :: l).countP fun x => decide (key x = c) && p x).sum =
            (cs.map fun c => l.countP fun x => decide (key x = c) && p x).sum +
            (cs.map fun c => if (decide (key a = c) && p a) = true then 1 else 0).sum := by
        rw [← sum_map_add]
        congr 1
        apply List.map_congr_left
        intro c _
        rw [List.countP_cons]
      rw [hsplit, ih hl, List.countP_cons]
      congr 1
      by_cases hp : p a = true
      · have : (cs.map fun c => if (decide (key a = c) && p a) = true then 1 else 0) =
            cs.map fun c => if key a = c then 1 else 0 := by
          apply List.map_congr_left
          intro c _
          simp [hp]
        rw [this, sum_indicator_nodup cs (key a) hnd ha, hp]
        simp
      · have : (cs.map fun c => if (decide (key a = c) && p a) = true then 1 else 0) =
            cs.map fun _ => 0 := by
          apply List.map_congr_left
          intro c _
          simp [hp]
        rw [this]
        simp [hp]

lemma countP_filter_by_key {α : Type} (key : α → String) (p : α → Bool)
    (l : List α) (c : String) :
    (l.filter fun x => key x = c).countP p = l.countP fun x => decide (key x = c) && p x := by
  rw [List.countP_filter]
  apply List.countP_congr
  intro x _
  simp [Bool.and_comm]

lemma appStep_preserves_pendingInv {s : AppState} {e : AppEvent} {t : AppState}
    (hs : PendingInv s) (h : AppStep s e t) : PendingInv t := by
  cases h with
  | startTest categories hscreen =>
      exact ⟨fun c hc => rfl, fun a ha => (by cases ha)⟩
  | startResolve categories r hpending =>
      cases r with
      | ok d => exact ⟨fun c hc => (by cases hc), fun a ha => (by cases ha)⟩
      | error msg => exact ⟨fun c hc => (by cases hc), fun a ha => (by cases ha)⟩
  | submitTest answers hscreen =>
      exact ⟨fun c hc => (by cases hc), fun a ha => rfl⟩
  | submitResolve answers r hpending =>
      cases r with
      | ok d => exact ⟨fun c hc => (by cases hc), fun a ha => (by cases ha)⟩
      | error msg => exact ⟨fun c hc => (by cases hc), fun a ha => (by cases ha)⟩
  | testAgain hscreen =>
      refine ⟨fun c hc => ?_, fun a ha => ?_⟩
      · have := hs.1 c hc
        rw [hscreen] at this
        cases this
      · have := hs.2 a ha
        rw [hscreen] at this
        cases this
  | categoriesResolve r =>
      cases r with
      | ok cats => exact ⟨fun c hc => hs.1 c hc, fun a ha => hs.2 a ha⟩
      | error msg => exact ⟨fun c hc => hs.1 c hc, fun a ha => hs.2 a ha⟩

lemma appReachable_pendingInv {s : AppState} (h : AppReachable s) : PendingInv s := by
  induction h with
  | init => exact ⟨fun c hc => (by cases hc), fun a ha => (by cases ha)⟩
  | step _ hstep ih => exact appStep_preserves_pendingInv ih hstep

lemma setKey_mem {k : String} {v : Nat} :
    ∀ {l : UserAnswer} {p : String × Nat}, p ∈ setKey k v l → p = (k, v) ∨ p ∈ l := by
  intro l
  induction l with
  | nil =>
      intro p hp
      simp [setKey] at hp
      exact Or.inl hp
  | cons hd rest ih =>
      intro p hp
      rw [show setKey k v (hd :: rest) =
            if hd.1 = k then (k, v) :: rest else hd :: setKey k v rest from rfl] at hp
      split at hp
      · rcases List.mem_cons.mp hp with h | h
        · exact Or.inl h
        · exact Or.inr (List.mem_cons_of_mem hd h)
      · rcases List.mem_cons.mp hp with h | h
        · exact Or.inr (h ▸ List.mem_cons_self hd rest)
        · rcases ih h with h2 | h2
          · exact Or.inl h2
          · exact Or.inr (List.mem_cons_of_mem hd h2)

lemma wReach3 : AppReachable wState3 :=
  AppReachable.step
    (AppReachable.step
      (AppReachable.step AppReachable.init
        (AppStep.startTest initialAppState [wCategory] rfl))
      (AppStep.startResolve wState1 [wCategory] (.ok wStartData) rfl))
    (AppStep.submitTest wState2 wAnswers rfl)

lemma wTSReach : TestScreenReachable [wQuestion] wTSState :=
  TestScreenReachable.step TestScreenReachable.init
    (TestScreenStep.select initialTestScreenState 1 (by decide) (by decide))

/-- C2: the countdown timer never reports negative time: for a time limit
L ≥ 0 the displayed remaining time starts at L, once it is 0 it stays 0,
every tick from a positive value decreases it by exactly one, and
timeLeft ≥ 0 holds after every tick. -/
theorem timer_never_negative (L : Int) (hL : 0 ≤ L) :
    timeLeftAt L 0 = L ∧
    (∀ n, 0 ≤ timeLeftAt L n) ∧
    (∀ n, timeLeftAt L n = 0 → timeLeftAt L (n + 1) = 0) ∧
    (∀ n, 0 < timeLeftAt L n → timeLeftAt L (n + 1) = timeLeftAt L n - 1) := by
  by_cases h0 : L ≤ 0
  · have hL0 : L = 0 := le_antisymm h0 hL
    subst hL0
    refine ⟨rfl, ?_, ?_, ?_⟩
    · intro n; simp [timeLeftAt]
    · intro n _; simp [timeLeftAt]
    · intro n hn; simp [timeLeftAt] at hn
  · have hiter : ∀ n, timeLeftAt L n = tick^[n] L := by
      intro n; simp [timeLeftAt, h0]
    refine ⟨by simp [hiter], ?_, ?_, ?_⟩
    · intro n; rw [hiter]; exact tick_iterate_nonneg hL n
    · intro n hn
      rw [hiter n] at hn
      rw [hiter (n + 1), Function.iterate_succ_apply', hn]
      simp [tick]
    · intro n hn
      rw [hiter n] at hn ⊢
      rw [hiter (n + 1), Function.iterate_succ_apply']
      generalize tick^[n] L = t at hn ⊢
      unfold tick
      split <;> omega

/-- Witness for C2: at time limit 3 the hypothesis 0 ≤ 3 holds and the
displayed time starts at 3. -/
theorem timer_never_negative_witness : timeLeftAt 3 0 = 3 :=
  (timer_never_negative 3 (by decide)).1

/-- C7: the percentage arithmetic is total and guarded: the bar width is
(correct / total) * 100 whenever total > 0 and exactly 0 when total = 0,
so the division branch is only taken with a nonzero divisor. -/
theorem percentage_guarded (correct total : Nat) :
    (0 < total → resultBarPercentage correct total = ((correct : ℚ) / (total : ℚ)) * 100) ∧
    (total = 0 → resultBarPercentage correct total = 0) := by
  constructor
  · intro h; simp [resultBarPercentage, h]
  · intro h; simp [resultBarPercentage, h]

/-- Witness for C7: a concrete bar with counts (3, 4) takes the guarded
division branch. -/
theorem percentage_guarded_witness :
    resultBarPercentage 3 4 = ((3 : ℚ) / (4 : ℚ)) * 100 :=
  (percentage_guarded 3 4).1 (by decide)

/-- C10: category selection is a toggle involution: handleSelect id flips
membership of id, leaves every other id untouched, and applying it twice
returns exactly the original selection set. -/
theorem handleSelect_involution (id : String) (s : Finset String) :
    handleSelect id (handleSelect id s) = s ∧
    (id ∈ handleSelect id s ↔ id ∉ s) ∧
    (∀ x, x ≠ id → (x ∈ handleSelect id s ↔ x ∈ s)) := by
  refine ⟨?_, ?_, ?_⟩
  · by_cases h : id ∈ s
    · have h2 : id ∉ s.erase id := Finset.not_mem_erase id s
      simp only [handleSelect, if_pos h, if_neg h2]
      exact Finset.insert_erase h
    · have h2 : id ∈ insert id s := Finset.mem_insert_self id s
      simp only [handleSelect, if_neg h, if_pos h2]
      exact Finset.erase_insert h
  · by_cases h : id ∈ s <;> simp [handleSelect, h]
  · intro x hx
    by_cases h : id ∈ s <;>
      simp [handleSelect, h, Finset.mem_erase, Finset.mem_insert, hx, Ne.symm hx]

/-- Witness for C10: with the concrete selection set containing only the
category id b, toggling a leaves membership of b unchanged. -/
theorem handleSelect_involution_witness :
    ("b" ∈ handleSelect "a" {"b"} ↔ "b" ∈ ({"b"} : Finset String)) :=
  (handleSelect_involution "a" {"b"}).2.2 "b" (by decide)

/-- C3: for every TestResults value produced by the scoring, the sum over
the categoryResults entries of the correct fields equals totalCorrect, and
the sum of the total fields equals totalQuestions. -/
theorem category_results_sum (bank : List BankQuestion) (answers : List BackendAnswer) :
    (((scoreTest bank answers).categoryResults).map fun p => p.2.correct).sum =
      (scoreTest bank answers).totalCorrect ∧
    (((scoreTest bank answers).categoryResults).map fun p => p.2.total).sum =
      (scoreTest bank answers).totalQuestions := by
  have hcov : ∀ x ∈ bank, x.category ∈ (bank.map fun q => q.category).dedup := by
    intro x hx
    exact List.mem_dedup.mpr (List.mem_map_of_mem _ hx)
  have hnd := List.nodup_dedup (bank.map fun q => q.category)
  constructor
  · simp only [scoreTest, List.map_map, Function.comp_def]
    have hentry :
        (((bank.map fun q => q.category).dedup).map fun c =>
            (bank.filter fun q => q.category = c).countP (isCorrect answers)) =
          ((bank.map fun q => q.category).dedup).map fun c =>
            bank.countP fun x => decide (x.category = c) && isCorrect answers x := by
      apply List.map_congr_left
      intro c _
      exact countP_filter_by_key (fun q => q.category) (isCorrect answers) bank c
    rw [hentry]
    exact countP_sum_over_keys (fun q => q.category) (isCorrect answers) _ hnd bank hcov
  · simp only [scoreTest, List.map_map, Function.comp_def]
    have hentry :
        (((bank.map fun q => q.category).dedup).map fun c =>
            (bank.filter fun q => q.category = c).length) =
          ((bank.map fun q => q.category).dedup).map fun c =>
            bank.countP fun x => decide (x.category = c) && true := by
      apply List.map_congr_left
      intro c _
      simp only [Bool.and_true]
      exact (List.countP_eq_length_filter _ _).symm
    rw [hentry]
    rw [countP_sum_over_keys (fun q => q.category) (fun _ => true) _ hnd bank hcov]
    exact congrFun List.countP_true bank

/-- C9: shuffleArray is a pure permutation: for every comparison-outcome
stream the output holds exactly the elements of the input, and the spread
copy it sorts equals the input array, so the input itself is never
mutated. -/
theorem shuffleArray_is_permutation {T : Type} (r : Nat → Bool) (a : List T) :
    (shuffleArray r a).Perm a ∧ spreadCopy a = a := by
  refine ⟨?_, spreadCopy_eq a⟩
  unfold shuffleArray
  rw [spreadCopy_eq]
  exact sortR_perm r a 0

/-- C5: the watcher submits the currently recorded answers exactly when
the countdown has reached 0 and the question list is non-empty; with an
empty question list, or at a nonzero time, nothing is submitted. -/
theorem submit_on_timeout (n : Nat) (answers : UserAnswer) :
    (0 < n → timeoutSubmit 0 n answers = some answers) ∧
    timeoutSubmit 0 0 answers = none ∧
    (∀ t : Int, t ≠ 0 → timeoutSubmit t n answers = none) := by
  refine ⟨?_, ?_, ?_⟩
  · intro h; simp [timeoutSubmit, h]
  · simp [timeoutSubmit]
  · intro t ht; simp [timeoutSubmit, ht]

/-- Witness for C5: with one question and one recorded answer, reaching 0
submits exactly the recorded answers. -/
theorem submit_on_timeout_witness :
    timeoutSubmit 0 1 [("1", 0)] = some [("1", 0)] :=
  (submit_on_timeout 1 [("1", 0)]).1 (by decide)

/-- C6: the client references exactly three backend endpoints: every fetch
call site has path /categories, /start-test or /submit-test; /categories
is a GET with no body, /start-test a POST carrying the selected category
ids, and /submit-test a POST carrying the recorded answers. -/
theorem client_endpoints (categories : List Category) (answers : UserAnswer) :
    (∀ site : FetchSite,
       sitePath site = "/categories" ∨ sitePath site = "/start-test" ∨
       sitePath site = "/submit-test") ∧
    (siteMethod .categories = .get ∧ siteBody categories answers .categories = .empty) ∧
    (siteMethod .startTest = .post ∧
       siteBody categories answers .startTest = .categoryIds (categories.map fun c => c.id)) ∧
    (siteMethod .submitTest = .post ∧
       siteBody categories answers .submitTest =
         .answerList (answers.map fun p => ⟨jsParseInt p.1, p.2⟩)) := by
  refine ⟨?_, ⟨rfl, rfl⟩, ⟨rfl, rfl⟩, ⟨rfl, rfl⟩⟩
  intro site
  cases site
  · exact Or.inl rfl
  · exact Or.inr (Or.inl rfl)
  · exact Or.inr (Or.inr rfl)

/-- C1: the client is a four-screen UI state machine: the screens are
exactly selection, test, loading and results; a step enters the results
screen only from the loading screen with a submission in flight; and a
submission goes in flight only by the submit handler firing from the test
screen.  Hence every run reaches results only by selection, then test,
then a submission through loading, never directly from selection. -/
theorem results_entered_only_via_submission :
    (∀ sc : Screen, sc = .selection ∨ sc = .test ∨ sc = .loading ∨ sc = .results) ∧
    (∀ s e t, AppReachable s → AppStep s e t →
       t.screen = .results → s.screen ≠ .results →
       s.screen = .loading ∧
         ∃ answers r, s.pending = .submitReq answers ∧ e = .submitResolve r) ∧
    (∀ s e t, AppStep s e t → ∀ answers, t.pending = .submitReq answers →
       s.pending = .submitReq answers ∨ (s.screen = .test ∧ e = .submitTest answers)) := by
  refine ⟨?_, ?_, ?_⟩
  · intro sc
    cases sc
    · exact Or.inl rfl
    · exact Or.inr (Or.inl rfl)
    · exact Or.inr (Or.inr (Or.inl rfl))
    · exact Or.inr (Or.inr (Or.inr rfl))
  · intro s e t hr hstep ht hne
    cases hstep with
    | startTest categories hscreen => simp [startTestBegin] at ht
    | startResolve categories r hpending =>
        cases r with
        | ok d => simp [startTestResolve] at ht
        | error m => simp [startTestResolve] at ht
    | submitTest answers hscreen => simp [submitTestBegin] at ht
    | submitResolve answers r hpending =>
        have hload := (appReachable_pendingInv hr).2 answers hpending
        exact ⟨hload, answers, r, hpending, rfl⟩
    | testAgain hscreen => simp [testAgainUpdate] at ht
    | categoriesResolve r =>
        cases r with
        | ok cats => exact absurd ht hne
        | error m => exact absurd ht hne
  · intro s e t hstep answers hpend
    cases hstep with
    | startTest categories hscreen => cases hpend
    | startResolve categories r hpending =>
        cases r with
        | ok d => cases hpend
        | error m => cases hpend
    | submitTest answers0 hscreen =>
        cases hpend
        exact Or.inr ⟨hscreen, rfl⟩
    | submitResolve answers0 r hpending =>
        cases r with
        | ok d => cases hpend
        | error m => cases hpend
    | testAgain hscreen => exact Or.inl hpend
    | categoriesResolve r =>
        cases r with
        | ok cats => exact Or.inl hpend
        | error m => exact Or.inl hpend

/-- Witness for C1: the concrete run selection, start test, submit is a
reachable state whose submit resolution enters results, and the theorem
yields that it came from loading with the submission in flight. -/
theorem results_entered_only_via_submission_witness :
    wState3.screen = .loading ∧
      ∃ answers r, wState3.pending = .submitReq answers ∧
        (AppEvent.submitResolve (.ok wSubmitResponse)) = .submitResolve r :=
  results_entered_only_via_submission.2.1 wState3
    (.submitResolve (.ok wSubmitResponse)) wState4 wReach3
    (AppStep.submitResolve wState3 wAnswers (.ok wSubmitResponse) rfl) rfl (by decide)

/-- C4: every entry of the userAnswers map, in every reachable TestScreen
state (in particular at submission time), stores an index that is in range
for the options of the question whose id keys it, because
handleAnswerSelect only fires for a rendered option button. -/
theorem answer_indices_in_range (questions : List Question) (s : TestScreenState)
    (h : TestScreenReachable questions s) :
    ∀ p ∈ s.userAnswers,
      ∃ q ∈ questions, toString q.id = p.1 ∧ p.2 < q.options.length := by
  induction h with
  | init => intro p hp; cases hp
  | step hr hstep ih =>
      cases hstep with
      | select i hq hi =>
          intro p hp
          rcases setKey_mem hp with hpe | hpm
          · subst hpe
            exact ⟨_, List.get_mem questions _ _, rfl, hi⟩
          · exact ih p hpm
      | next h2 => intro p hp; exact ih p hp
      | prev h2 => intro p hp; exact ih p hp

/-- Witness for C4: in the reachable state where option 1 of the concrete
two-option question was selected, the recorded entry is in range. -/
theorem answer_indices_in_range_witness :
    ∃ q ∈ [wQuestion], toString q.id = "1" ∧ 1 < q.options.length :=
  answer_indices_in_range [wQuestion] wTSState wTSReach ("1", 1) (by decide)

/-- C8: after handleSubmitTest completes the screen is results whether the
request succeeded or failed; on failure only the error message is set and
the previously held testResults and analysis (none on a first submission)
are unchanged, as are the quiz questions, categories and time limit. -/
theorem submit_always_shows_results (s : AppState) (answers : UserAnswer)
    (r : Except String SubmitResponse) :
    (handleSubmitTest s answers r).screen = .results ∧
    (∀ msg, r = .error msg →
       (handleSubmitTest s answers r).testResults = s.testResults ∧
       (handleSubmitTest s answers r).analysis = s.analysis ∧
       (handleSubmitTest s answers r).error = some msg ∧
       (handleSubmitTest s answers r).quizQuestions = s.quizQuestions ∧
       (handleSubmitTest s answers r).allCategories = s.allCategories ∧
       (handleSubmitTest s answers r).timeLimit = s.timeLimit) ∧
    (∀ d, r = .ok d →
       (handleSubmitTest s answers r).testResults = some d.results ∧
       (handleSubmitTest s answers r).analysis = some d.analysis ∧
       (handleSubmitTest s answers r).error = none) := by
  cases r with
  | ok d =>
      refine ⟨rfl, ?_, ?_⟩
      · intro msg h; cases h
      · intro d2 h
        cases h
        exact ⟨rfl, rfl, rfl⟩
  | error msg =>
      refine ⟨rfl, ?_, ?_⟩
      · intro msg2 h
        cases h
        exact ⟨rfl, rfl, rfl, rfl, rfl, rfl⟩
      · intro d h; cases h

/-- Witness for C8: a failed first submission from the initial state keeps
testResults and analysis at none and records only the error message. -/
theorem submit_always_shows_results_witness :
    (handleSubmitTest initialAppState wAnswers (Except.error "boom")).testResults =
        initialAppState.testResults ∧
      (handleSubmitTest initialAppState wAnswers (Except.error "boom")).analysis =
        initialAppState.analysis ∧
      (handleSubmitTest initialAppState wAnswers (Except.error "boom")).error =
        some "boom" ∧
      (handleSubmitTest initialAppState wAnswers (Except.error "boom")).quizQuestions =
        initialAppState.quizQuestions ∧
      (handleSubmitTest initialAppState wAnswers (Except.error "boom")).allCategories =
        initialAppState.allCategories ∧
      (handleSubmitTest initialAppState wAnswers (Except.error "boom")).timeLimit =
        initialAppState.timeLimit :=
  (submit_always_shows_results initialAppState wAnswers (Except.error "boom")).2.1 "boom" rfl
